import Mathlib

set_option maxRecDepth 10000

/-!
Verification development for the agent-usage session tracker.

The Go source is embedded shallowly:
* the two JSONL session parsers (internal/tracker/codex_parser.go) are folds
  over lists of already-decoded entries (JSON decoding and timestamp parsing
  are external; a line that fails structural decoding simply does not occur
  in the entry list, and an unparsable timestamp is the zero timestamp 0);
* IEEE-754 binary64 arithmetic (Go float64) is modelled by exact rationals
  (integer numerator/denominator pairs) together with an explicit
  round-to-nearest-even rounding function at 53 significand bits, exact on
  the normal range, which covers every value in the cost computations;
* the SQLite store (the db layer and internal/tracker/sqlite.go) is a record
  of row lists with autoincrement counters; the UNIQUE constraint on
  sessions.external_id is enforced by insertSession.
-/

/-- An exact rational as an integer pair (denominator kept positive by all
constructions below).  Used to model the exact values that IEEE-754 binary64
operations round. -/
structure Q where
  num : Int
  den : Int
  deriving Repr, DecidableEq

/-- The two rational pairs denote the same rational number. -/
def qEquiv (a b : Q) : Prop := a.num * b.den = b.num * a.den

instance (a b : Q) : Decidable (qEquiv a b) := by
  unfold qEquiv
  infer_instance

/-- Exact rational addition. -/
def qadd (a b : Q) : Q := ⟨a.num * b.den + b.num * a.den, a.den * b.den⟩

/-- Exact rational multiplication. -/
def qmul (a b : Q) : Q := ⟨a.num * b.num, a.den * b.den⟩

/-- Exact rational division (sign moved to the numerator). -/
def qdiv (a b : Q) : Q :=
  let n := a.num * b.den
  let d := a.den * b.num
  if d < 0 then ⟨-n, -d⟩ else ⟨n, d⟩

/-- Multiply a rational by 2^k (k may be negative). -/
def qshift (q : Q) (k : Int) : Q :=
  if 0 ≤ k then ⟨q.num * ((2:Int) ^ k.toNat), q.den⟩
  else ⟨q.num, q.den * ((2:Int) ^ (-k).toNat)⟩

/-- Binary exponent search: the unique e with 2^e <= q < 2^(e+1) for a
positive rational q, computed with explicit fuel (structural recursion). -/
def ilog2Aux : Nat → Q → Int
  | 0, _ => 0
  | fuel+1, q =>
    if q.num < q.den then ilog2Aux fuel ⟨2 * q.num, q.den⟩ - 1
    else if 2 * q.den ≤ q.num then ilog2Aux fuel ⟨q.num, 2 * q.den⟩ + 1
    else 0

/-- IEEE-754 binary64 rounding (round to nearest, ties to even) of an exact
rational, modelled on the normal range: the significand is rounded to 53 bits.
Every Go float64 operation in the source rounds its exact result this way. -/
def FRND (q : Q) : Q :=
  if q.num = 0 then ⟨0, 1⟩ else
  let s : Int := if q.num < 0 then -1 else 1
  let a : Q := ⟨s * q.num, q.den⟩
  let e : Int := ilog2Aux 2400 a
  let m : Q := qshift a (52 - e)
  let n : Int := m.num.fdiv m.den
  let r : Int := m.num - n * m.den
  let nr : Int :=
    if 2 * r < m.den then n
    else if m.den < 2 * r then n + 1
    else (if n % 2 = 0 then n else n + 1)
  qshift ⟨s * nr, 1⟩ (e - 52)

/-- Go float64 conversion of an integer (exact below 2^53, rounded above). -/
def fofInt (n : Int) : Q := FRND ⟨n, 1⟩

/-- Go float64 addition. -/
def fadd (a b : Q) : Q := FRND (qadd a b)

/-- Go float64 multiplication. -/
def fmul (a b : Q) : Q := FRND (qmul a b)

/-- Go float64 division. -/
def fdiv (a b : Q) : Q := FRND (qdiv a b)

/-- The float64 value of a decimal literal num/den in the Go source. -/
def flit (n d : Int) : Q := FRND ⟨n, d⟩

/-- TokenUsage from internal/tracker: token usage for a session.  The codex
parser fills Input, Output, Cached, Reasoning and Total; the claude parser
fills Input, Output, CacheCreation, CacheRead and Total. -/
structure TokenUsage where
  Input : Int := 0
  Output : Int := 0
  Cached : Int := 0
  CacheCreation : Int := 0
  CacheRead : Int := 0
  Reasoning : Int := 0
  Total : Int := 0
  deriving Repr, DecidableEq

/-- calculateClaudeCost from internal/tracker/codex_parser.go: Anthropic
pricing, four components summed left to right, each term float64(tokens)
times rate divided by one million, one IEEE rounding per operation. -/
def calculateClaudeCost (tokens : TokenUsage) : Q :=
  let inputCost := fdiv (fmul (fofInt tokens.Input) (flit 3 1)) (flit 1000000 1)
  let cacheCreationCost := fdiv (fmul (fofInt tokens.CacheCreation) (flit 15 4)) (flit 1000000 1)
  let cacheReadCost := fdiv (fmul (fofInt tokens.CacheRead) (flit 3 10)) (flit 1000000 1)
  let outputCost := fdiv (fmul (fofInt tokens.Output) (flit 15 1)) (flit 1000000 1)
  fadd (fadd (fadd inputCost cacheCreationCost) cacheReadCost) outputCost

/-- Codex cost rule from ParseCodexSession and estimateTokens:
float64(Input)*3/1e6 + float64(Output)*15/1e6 in float64 arithmetic. -/
def codexCost (inp outp : Int) : Q :=
  fadd (fdiv (fmul (fofInt inp) (flit 3 1)) (flit 1000000 1))
       (fdiv (fmul (fofInt outp) (flit 15 1)) (flit 1000000 1))

/-- Go len() of a string counts UTF-8 bytes. -/
def goLen (s : String) : Nat := s.utf8ByteSize

/-- CodexMessage from internal/tracker/codex_parser.go. -/
structure CodexMessage where
  Role : String
  Content : String
  Timestamp : Int
  deriving Repr, DecidableEq

/-- CodexToolCall from internal/tracker/codex_parser.go. -/
structure CodexToolCall where
  ToolName : String
  Arguments : String
  Result : String
  Timestamp : Int
  deriving Repr, DecidableEq

/-- CodexSession from internal/tracker/codex_parser.go.  Timestamps are Int
(0 is the Go zero time); EndedAt models the nullable pointer. -/
structure CodexSession where
  ID : String := ""
  ProjectPath : String := ""
  Model : String := ""
  Provider : String := ""
  StartedAt : Int := 0
  EndedAt : Option Int := none
  Tokens : TokenUsage := {}
  Cost : Q := ⟨0, 1⟩
  Messages : List CodexMessage := []
  ToolCalls : List CodexToolCall := []
  deriving Repr, DecidableEq

/-- One content item of a response_item message payload. -/
structure CodexContentItem where
  ctype : String
  text : String
  deriving Repr, DecidableEq

/-- The total_token_usage object of a token_count event payload: each field
is present (some) or absent (none); Go float64-to-int truncation is external. -/
structure CodexUsage where
  inputTokens : Option Int := none
  cachedInputTokens : Option Int := none
  outputTokens : Option Int := none
  reasoningOutputTokens : Option Int := none
  totalTokens : Option Int := none
  deriving Repr, DecidableEq

/-- A decoded codex log record, keyed by its type discriminator.  A field of
Option type is none when the JSON key is absent or of the wrong type.  The
other constructor covers unrecognized types and payloads whose secondary
JSON decode failed (both have no effect beyond the timestamps). -/
inductive CodexEvent where
  | sessionMeta (id cwd modelProvider originator : Option String) (metaTs : Option Int)
  | turnContext (model : Option String)
  | responseItem (rtype role : String) (content : List CodexContentItem)
  | eventMsg (etype : Option String) (name : Option String) (inputJson : String) (usage : Option CodexUsage)
  | other
  deriving Repr, DecidableEq

/-- A decoded line of a codex log file: record timestamp (0 when unparsable)
plus the typed payload. -/
structure CodexEntry where
  ts : Int
  ev : CodexEvent
  deriving Repr, DecidableEq

/-- extractMessageContent from internal/tracker/codex_parser.go: concatenate,
in order and with no separator, the text of content items whose type is
output_text or input_text. -/
def extractMessageContent (content : List CodexContentItem) : String :=
  content.foldl
    (fun acc c => if c.ctype == "output_text" || c.ctype == "input_text" then acc ++ c.text else acc) ""

/-- Apply the token_count overwrite semantics: each present field replaces
the session's current counter (never accumulates). -/
def applyCodexUsage (t : TokenUsage) (u : CodexUsage) : TokenUsage :=
  { t with
    Input := u.inputTokens.getD t.Input
    Cached := u.cachedInputTokens.getD t.Cached
    Output := u.outputTokens.getD t.Output
    Reasoning := u.reasoningOutputTokens.getD t.Reasoning
    Total := u.totalTokens.getD t.Total }

/-- The switch body of the ParseCodexSession loop: the effect of one decoded
record (with its record timestamp ts) on the accumulating session. -/
def applyCodexEntry (s : CodexSession) (ts : Int) : CodexEvent → CodexSession
  | .sessionMeta id cwd modelProvider originator metaTs =>
    { s with
      ID := id.getD s.ID
      ProjectPath := cwd.getD s.ProjectPath
      Provider := modelProvider.getD s.Provider
      Model := originator.getD s.Model
      StartedAt := metaTs.getD s.StartedAt }
  | .turnContext model => { s with Model := model.getD s.Model }
  | .responseItem rtype role content =>
    if rtype == "message" then
      let c := extractMessageContent content
      if c ≠ "" then
        { s with Messages := s.Messages ++ [{ Role := role, Content := c, Timestamp := ts }] }
      else s
    else s
  | .eventMsg etype name inputJson usage =>
    let s1 :=
      if etype == some "tool_use" then
        { s with ToolCalls := s.ToolCalls ++
            [{ ToolName := name.getD "", Arguments := inputJson, Result := "", Timestamp := ts }] }
      else s
    if etype == some "token_count" then
      match usage with
      | some u => { s1 with Tokens := applyCodexUsage s1.Tokens u }
      | none => s1
    else s1
  | .other => s

/-- One iteration of the ParseCodexSession loop: update first/last timestamp
trackers (firstTimestamp is set while it is still zero) and apply the record. -/
def codexStep (acc : CodexSession × Int × Int) (e : CodexEntry) : CodexSession × Int × Int :=
  let f := if acc.2.1 = 0 then e.ts else acc.2.1
  (applyCodexEntry acc.1 e.ts e.ev, f, e.ts)

/-- Sum of Go len() over transcript messages whose role is developer or user
(the input side of the estimation). -/
def inputCharsOf (ms : List CodexMessage) : Nat :=
  ms.foldl (fun a m => if m.Role == "developer" || m.Role == "user" then a + goLen m.Content else a) 0

/-- Sum of Go len() over transcript messages of all other roles. -/
def outputCharsOf (ms : List CodexMessage) : Nat :=
  ms.foldl (fun a m => if m.Role == "developer" || m.Role == "user" then a else a + goLen m.Content) 0

/-- estimateTokens from internal/tracker/codex_parser.go: tokens are character
counts divided by 4 (truncating), total is their sum, cost uses the flat
input/output rule.  Cached, CacheCreation, CacheRead and Reasoning are not
touched. -/
def estimateTokens (s : CodexSession) : CodexSession :=
  let ti : Int := ((inputCharsOf s.Messages) / 4 : Nat)
  let tOut : Int := ((outputCharsOf s.Messages) / 4 : Nat)
  { s with
    Tokens := { s.Tokens with Input := ti, Output := tOut, Total := ti + tOut }
    Cost := codexCost ti tOut }

/-- ParseCodexSession from internal/tracker/codex_parser.go, over the decoded
entry list: fold the loop, then finalize StartedAt/EndedAt from the timestamp
trackers, and either estimate tokens (when no token_count supplied a nonzero
total) or compute the cost from the real totals. -/
def parseCodexEntries (entries : List CodexEntry) : CodexSession :=
  let acc := entries.foldl codexStep (({} : CodexSession), 0, 0)
  let s : CodexSession := { acc.1 with StartedAt := acc.2.1, EndedAt := some acc.2.2 }
  if s.Tokens.Total = 0 then estimateTokens s
  else { s with Cost := codexCost s.Tokens.Input s.Tokens.Output }

/-- ClaudeMessage from internal/tracker/codex_parser.go (claude parser). -/
structure ClaudeMessage where
  Role : String
  Content : String
  Timestamp : Int
  deriving Repr, DecidableEq

/-- ClaudeSession from the claude parser: Provider is fixed to anthropic at
construction. -/
structure ClaudeSession where
  ID : String := ""
  ProjectPath : String := ""
  Model : String := ""
  Provider : String := ""
  StartedAt : Int := 0
  EndedAt : Option Int := none
  Tokens : TokenUsage := {}
  Cost : Q := ⟨0, 1⟩
  Messages : List ClaudeMessage := []
  deriving Repr, DecidableEq

/-- claudeUsage: the usage object of a message sub-object (absent JSON keys
decode to 0). -/
structure ClaudeUsage where
  inputTokens : Int := 0
  outputTokens : Int := 0
  cacheCreationInputTokens : Int := 0
  cacheReadInputTokens : Int := 0
  deriving Repr, DecidableEq

/-- One typed block of an array-shaped content field (absent keys are ""). -/
structure ClaudeBlock where
  btype : String := ""
  text : String := ""
  thinking : String := ""
  name : String := ""
  content : String := ""
  deriving Repr, DecidableEq

/-- The decode outcome of a raw content field, by JSON shape: null/empty raw,
a plain string, an array of typed blocks, an object (with optional text and
content string fields), or a shape none of the decoders accept. -/
inductive ClaudeContent where
  | nullc
  | str (s : String)
  | blocks (items : List ClaudeBlock)
  | obj (text content : Option String)
  | malformed
  deriving Repr, DecidableEq

/-- The parts loop of extractClaudeMessageContent for an array of blocks. -/
def claudeBlockParts (items : List ClaudeBlock) : List String :=
  items.foldl
    (fun ps item =>
      if item.btype == "text" then
        (if item.text ≠ "" then ps ++ [item.text] else ps)
      else if item.btype == "thinking" then
        (if item.thinking ≠ "" then ps ++ [item.thinking] else ps)
      else if item.btype == "tool_use" then
        (if item.name ≠ "" then ps ++ ["[tool_use:" ++ item.name ++ "]"] else ps ++ ["[tool_use]"])
      else if item.btype == "tool_result" then
        (if item.content ≠ "" then ps ++ [item.content] else ps ++ ["[tool_result]"])
      else
        (let ps1 := if item.text ≠ "" then ps ++ [item.text] else ps
         if item.content ≠ "" then ps1 ++ [item.content] else ps1))
    []

/-- extractClaudeMessageContent from the claude parser: a string is used
as-is, an array of blocks is joined by newline, an object yields its text
else content string field, and anything else yields empty content. -/
def extractClaudeMessageContent (c : ClaudeContent) : String :=
  match c with
  | .nullc => ""
  | .str s => s
  | .blocks items => String.intercalate "\n" (claudeBlockParts items)
  | .obj text content =>
    match text with
    | some t => t
    | none => match content with | some s => s | none => ""
  | .malformed => ""

/-- claudeMessage: the message sub-object of a record (model/role default to
empty strings for absent keys, content to the null shape). -/
structure ClaudeMsgObj where
  model : String := ""
  role : String := ""
  usage : Option ClaudeUsage := none
  content : ClaudeContent := .nullc
  deriving Repr, DecidableEq

/-- claudeEntry: a decoded line of a claude log file.  ts is the parsed
record timestamp (0 when unparsable); content is none when the outer content
key is absent.  The system sub-object is decoded by the source but never
used, so it is not carried here. -/
structure ClaudeEntry where
  etype : String := ""
  ts : Int := 0
  sessionId : String := ""
  sessionId2 : String := ""
  cwd : String := ""
  projectPath : String := ""
  model : String := ""
  message : Option ClaudeMsgObj := none
  input : String := ""
  role : String := ""
  content : Option ClaudeContent := none
  deriving Repr, DecidableEq

/-- Accumulate a usage object into the running token counters (sums, never
overwrites — claude semantics). -/
def applyClaudeUsage (t : TokenUsage) (u : ClaudeUsage) : TokenUsage :=
  { t with
    Input := t.Input + u.inputTokens
    Output := t.Output + u.outputTokens
    CacheCreation := t.CacheCreation + u.cacheCreationInputTokens
    CacheRead := t.CacheRead + u.cacheReadInputTokens }

/-- The effective session id of a record: sessionId, falling back to the
legacy session_id alias when the former is empty. -/
def effectiveSessionId (e : ClaudeEntry) : String :=
  if e.sessionId ≠ "" then e.sessionId else e.sessionId2

/-- The effective project path of a record: cwd, falling back to the legacy
project_path alias when the former is empty. -/
def effectiveProject (e : ClaudeEntry) : String :=
  if e.cwd ≠ "" then e.cwd else e.projectPath

/-- The identity-capture block of the ParseClaudeSession loop: ID,
ProjectPath and Model from the outer record, each first-non-empty-wins. -/
def captureIdentity (s : ClaudeSession) (e : ClaudeEntry) : ClaudeSession :=
  let s1 := if s.ID == "" && effectiveSessionId e ≠ "" then { s with ID := effectiveSessionId e } else s
  let s2 :=
    if s1.ProjectPath == "" && effectiveProject e ≠ "" then { s1 with ProjectPath := effectiveProject e } else s1
  if s2.Model == "" && e.model ≠ "" then { s2 with Model := e.model } else s2

/-- The message-extraction block of the loop: content and role come from the
message sub-object when present (with last-wins model override and usage
accumulation), else from the outer content/role fields. -/
def messagePhase (s : ClaudeSession) (e : ClaudeEntry) : String × String × ClaudeSession :=
  match e.message with
  | some m =>
    let mc := extractClaudeMessageContent m.content
    let s4 := if m.model ≠ "" then { s with Model := m.model } else s
    let s5 :=
      match m.usage with
      | some u => { s4 with Tokens := applyClaudeUsage s4.Tokens u }
      | none => s4
    (mc, m.role, s5)
  | none =>
    let mc := match e.content with | some c => extractClaudeMessageContent c | none => ""
    (mc, e.role, s)

/-- The record-type switch of the loop, appending transcript messages. -/
def switchPhase (s : ClaudeSession) (e : ClaudeEntry) (messageContent messageRole : String) : ClaudeSession :=
  if e.etype == "user" then
    if e.input ≠ "" then
      { s with Messages := s.Messages ++ [{ Role := "user", Content := e.input, Timestamp := e.ts }] }
    else if messageContent ≠ "" then
      { s with Messages := s.Messages ++
          [{ Role := if messageRole == "" then "user" else messageRole,
             Content := messageContent, Timestamp := e.ts }] }
    else s
  else if e.etype == "assistant" then
    if messageContent ≠ "" then
      { s with Messages := s.Messages ++
          [{ Role := if messageRole == "" then "assistant" else messageRole,
             Content := messageContent, Timestamp := e.ts }] }
    else s
  else if e.etype == "system" then s
  else
    if messageContent ≠ "" && messageRole ≠ "" then
      { s with Messages := s.Messages ++
          [{ Role := messageRole, Content := messageContent, Timestamp := e.ts }] }
    else s

/-- The body of the ParseClaudeSession loop for one decoded record:
first-non-empty-wins identity capture, message extraction with usage
accumulation and model override, then the type switch appending transcript
messages. -/
def applyClaudeEntry (s : ClaudeSession) (e : ClaudeEntry) : ClaudeSession :=
  let s3 := captureIdentity s e
  let step := messagePhase s3 e
  switchPhase step.2.2 e step.1 step.2.1

/-- One iteration of the ParseClaudeSession loop: firstTimestamp is set while
still zero; lastTimestamp only advances on a non-zero record timestamp. -/
def claudeStep (acc : ClaudeSession × Int × Int) (e : ClaudeEntry) : ClaudeSession × Int × Int :=
  let f := if acc.2.1 = 0 then e.ts else acc.2.1
  let l := if e.ts ≠ 0 then e.ts else acc.2.2
  (applyClaudeEntry acc.1 e, f, l)

/-- ParseClaudeSession from internal/tracker/codex_parser.go (claude parser),
over the decoded entry list: Provider starts as anthropic, the loop is
folded, then StartedAt/EndedAt are finalized, Total is the sum of all four
components, and the cost uses the four-component Anthropic pricing. -/
def parseClaudeEntries (entries : List ClaudeEntry) : ClaudeSession :=
  let acc := entries.foldl claudeStep (({ Provider := "anthropic" } : ClaudeSession), 0, 0)
  let s := acc.1
  let tokens : TokenUsage :=
    { s.Tokens with Total := s.Tokens.Input + s.Tokens.Output + s.Tokens.CacheCreation + s.Tokens.CacheRead }
  { s with
    StartedAt := acc.2.1
    EndedAt := some acc.2.2
    Tokens := tokens
    Cost := calculateClaudeCost tokens }

example :
    (parseClaudeEntries
      [{ etype := "assistant", ts := 100, sessionId := "sess-123", cwd := "/path/to/project",
         message := some { model := "claude-3-5-sonnet", role := "assistant",
                           usage := some { inputTokens := 1000, outputTokens := 500,
                                           cacheCreationInputTokens := 200,
                                           cacheReadInputTokens := 100 } } }]).Tokens.Total = 1800 := by decide
example :
    qEquiv
      (parseClaudeEntries
        [{ etype := "assistant", ts := 100, sessionId := "sess-123", cwd := "/path/to/project",
           message := some { model := "claude-3-5-sonnet", role := "assistant",
                             usage := some { inputTokens := 1000, outputTokens := 500,
                                             cacheCreationInputTokens := 200,
                                             cacheReadInputTokens := 100 } } }]).Cost
      (flit 1128 100000) := by decide
example :
    (parseClaudeEntries
      [{ etype := "user", ts := 1, sessionId := "sess-123", cwd := "/path", input := "Hello Claude" },
       { etype := "assistant", ts := 2, sessionId := "sess-123", cwd := "/path",
         message := some { model := "claude-3", role := "assistant",
                           content := .blocks [{ btype := "text", text := "Hello Human" }],
                           usage := some { inputTokens := 10, outputTokens := 10 } } }]).Messages =
      [{ Role := "user", Content := "Hello Claude", Timestamp := 1 },
       { Role := "assistant", Content := "Hello Human", Timestamp := 2 }] := by decide

example : (parseCodexEntries []).EndedAt = some 0 := by decide
example :
    (parseCodexEntries
      [⟨5, .sessionMeta (some "test-123") (some "/test/project") (some "openai") (some "claude-3-5-sonnet") none⟩,
       ⟨6, .responseItem "message" "assistant" [⟨"output_text", "Hello"⟩]⟩,
       ⟨7, .responseItem "message" "user" [⟨"input_text", "Hi"⟩]⟩]).ID = "test-123" := by decide
example :
    (parseCodexEntries
      [⟨5, .responseItem "message" "developer" [⟨"output_text", "Hello"⟩]⟩,
       ⟨6, .responseItem "message" "user" [⟨"input_text", "World"⟩]⟩,
       ⟨7, .responseItem "message" "assistant" [⟨"output_text", "Response text"⟩]⟩]).Tokens.Total = 5 := by decide

/-- SessionRow from the db layer: one row of the sessions table.  cost is a
REAL column (float64 model); MessageCount is a read-side derived aggregate,
zero on freshly inserted rows. -/
structure SessionRow where
  ID : Int := 0
  ExternalID : String := ""
  Source : String := ""
  ProjectPath : String := ""
  Model : String := ""
  Provider : String := ""
  StartedAt : Int := 0
  EndedAt : Option Int := none
  InputTokens : Int := 0
  OutputTokens : Int := 0
  CacheCreationTokens : Int := 0
  CacheReadTokens : Int := 0
  ReasoningTokens : Int := 0
  TotalTokens : Int := 0
  Cost : Q := ⟨0, 1⟩
  MessageCount : Int := 0
  deriving Repr, DecidableEq

/-- MessageRow from the db layer: one row of the messages table. -/
structure MessageRow where
  ID : Int := 0
  SessionID : Int := 0
  Role : String := ""
  Content : String := ""
  Timestamp : Int := 0
  deriving Repr, DecidableEq

/-- ToolCallRow from the db layer: one row of the tool_calls table. -/
structure ToolCallRow where
  ID : Int := 0
  SessionID : Int := 0
  ToolName : String := ""
  Arguments : String := ""
  Result : String := ""
  Timestamp : Int := 0
  deriving Repr, DecidableEq

/-- The SQLite store state: the three row tables in insertion order plus the
autoincrement counters for their primary keys. -/
structure DBState where
  sessions : List SessionRow := []
  messages : List MessageRow := []
  toolCalls : List ToolCallRow := []
  nextSessionId : Int := 1
  nextMessageId : Int := 1
  nextToolCallId : Int := 1
  deriving Repr, DecidableEq

/-- GetSessionByExternalID from the db layer: SELECT ... WHERE external_id = ?
(the UNIQUE constraint makes at most one row match; the scan returns the
first). -/
def getSessionByExternalID (db : DBState) (externalID : String) : Option SessionRow :=
  db.sessions.find? (fun r => r.ExternalID == externalID)

/-- GetMessageCountBySessionID from the db layer: SELECT COUNT(*) FROM
messages WHERE session_id = ?. -/
def getMessageCountBySessionID (db : DBState) (sessionID : Int) : Int :=
  ((db.messages.filter (fun m => m.SessionID == sessionID)).length : Nat)

/-- InsertSession from the db layer: INSERT INTO sessions ...; the UNIQUE
constraint on external_id rejects a duplicate with a constraint error;
otherwise the row is appended with the next autoincrement id, which is
returned. -/
def insertSession (db : DBState) (s : SessionRow) : Except String (Int × DBState) :=
  if db.sessions.any (fun r => r.ExternalID == s.ExternalID) then
    .error "UNIQUE constraint failed: sessions.external_id"
  else
    .ok (db.nextSessionId,
      { db with
        sessions := db.sessions ++ [{ s with ID := db.nextSessionId }]
        nextSessionId := db.nextSessionId + 1 })

/-- InsertMessage from the db layer: INSERT INTO messages ... (no constraint
can fail here; the new autoincrement id is returned). -/
def insertMessage (db : DBState) (m : MessageRow) : Int × DBState :=
  (db.nextMessageId,
   { db with
     messages := db.messages ++ [{ m with ID := db.nextMessageId }]
     nextMessageId := db.nextMessageId + 1 })

/-- InsertToolCall from the db layer: INSERT INTO tool_calls .... -/
def insertToolCall (db : DBState) (t : ToolCallRow) : Int × DBState :=
  (db.nextToolCallId,
   { db with
     toolCalls := db.toolCalls ++ [{ t with ID := db.nextToolCallId }]
     nextToolCallId := db.nextToolCallId + 1 })

/-- The outcome of TrackSession / TrackClaudeSession, modelling its error
signalling: nil (inserted), ErrSessionBackfilled wrapped with the session id,
ErrSessionAlreadyTracked wrapped with the session id, or any other error. -/
inductive TrackOutcome where
  | inserted
  | backfilled (id : String)
  | alreadyTracked (id : String)
  | error (msg : String)
  deriving Repr, DecidableEq

/-- The session-id-to-message-row conversion used by both track functions:
each transcript message becomes a child row of the given session, picking up
consecutive autoincrement ids starting at nid. -/
def mkCodexMessageRows (sid nid : Int) : List CodexMessage → List MessageRow
  | [] => []
  | m :: ms =>
    { ID := nid, SessionID := sid, Role := m.Role, Content := m.Content, Timestamp := m.Timestamp }
      :: mkCodexMessageRows sid (nid + 1) ms

/-- Insert a list of codex transcript messages as child rows of session sid
(the message-insert loops of TrackSession). -/
def insertCodexMessages (db : DBState) (sid : Int) : List CodexMessage → DBState
  | [] => db
  | m :: ms =>
    let next := insertMessage db
      { SessionID := sid, Role := m.Role, Content := m.Content, Timestamp := m.Timestamp }
    insertCodexMessages next.2 sid ms

/-- Insert a list of codex tool calls as child rows of session sid (the
tool-call-insert loop of TrackSession). -/
def insertCodexToolCalls (db : DBState) (sid : Int) : List CodexToolCall → DBState
  | [] => db
  | t :: ts =>
    let next := insertToolCall db
      { SessionID := sid, ToolName := t.ToolName, Arguments := t.Arguments,
        Result := t.Result, Timestamp := t.Timestamp }
    insertCodexToolCalls next.2 sid ts

/-- Same as mkCodexMessageRows for the claude message type. -/
def mkClaudeMessageRows (sid nid : Int) : List ClaudeMessage → List MessageRow
  | [] => []
  | m :: ms =>
    { ID := nid, SessionID := sid, Role := m.Role, Content := m.Content, Timestamp := m.Timestamp }
      :: mkClaudeMessageRows sid (nid + 1) ms

/-- Insert a list of claude transcript messages as child rows of session sid
(the message-insert loops of TrackClaudeSession). -/
def insertClaudeMessages (db : DBState) (sid : Int) : List ClaudeMessage → DBState
  | [] => db
  | m :: ms =>
    let next := insertMessage db
      { SessionID := sid, Role := m.Role, Content := m.Content, Timestamp := m.Timestamp }
    insertClaudeMessages next.2 sid ms

/-- The SessionRow built by TrackSession from a parsed codex session (source
codex; timestamps already unix integers in this model). -/
def codexSessionRow (s : CodexSession) : SessionRow :=
  { ExternalID := s.ID
    Source := "codex"
    ProjectPath := s.ProjectPath
    Model := s.Model
    Provider := s.Provider
    StartedAt := s.StartedAt
    EndedAt := s.EndedAt
    InputTokens := s.Tokens.Input
    OutputTokens := s.Tokens.Output
    CacheCreationTokens := s.Tokens.CacheCreation
    CacheReadTokens := s.Tokens.CacheRead
    ReasoningTokens := s.Tokens.Reasoning
    TotalTokens := s.Tokens.Total
    Cost := s.Cost }

/-- The insert path of TrackSession (executed when the existence check saw no
row): insert the session row, then all messages, then all tool calls.  A
constraint failure from InsertSession surfaces as the generic wrapped error. -/
def trackSessionInsertPath (db : DBState) (s : CodexSession) : TrackOutcome × DBState :=
  match insertSession db (codexSessionRow s) with
  | .error _ => (.error "failed to insert session", db)
  | .ok (sid, db1) =>
    let db2 := insertCodexMessages db1 sid s.Messages
    let db3 := insertCodexToolCalls db2 sid s.ToolCalls
    (.inserted, db3)

/-- TrackSession from internal/tracker/sqlite.go: look up the external id;
if a row exists, backfill its messages when it has none and the parse has
some, else report already tracked; if no row exists, run the insert path. -/
def trackSession (db : DBState) (s : CodexSession) : TrackOutcome × DBState :=
  match getSessionByExternalID db s.ID with
  | some existing =>
    if s.Messages.length > 0 then
      if getMessageCountBySessionID db existing.ID = 0 then
        (.backfilled s.ID, insertCodexMessages db existing.ID s.Messages)
      else (.alreadyTracked s.ID, db)
    else (.alreadyTracked s.ID, db)
  | none => trackSessionInsertPath db s

/-- The SessionRow built by TrackClaudeSession (source claude). -/
def claudeSessionRow (s : ClaudeSession) : SessionRow :=
  { ExternalID := s.ID
    Source := "claude"
    ProjectPath := s.ProjectPath
    Model := s.Model
    Provider := s.Provider
    StartedAt := s.StartedAt
    EndedAt := s.EndedAt
    InputTokens := s.Tokens.Input
    OutputTokens := s.Tokens.Output
    CacheCreationTokens := s.Tokens.CacheCreation
    CacheReadTokens := s.Tokens.CacheRead
    ReasoningTokens := s.Tokens.Reasoning
    TotalTokens := s.Tokens.Total
    Cost := s.Cost }

/-- The insert path of TrackClaudeSession (no tool-call loop). -/
def trackClaudeSessionInsertPath (db : DBState) (s : ClaudeSession) : TrackOutcome × DBState :=
  match insertSession db (claudeSessionRow s) with
  | .error _ => (.error "failed to insert session", db)
  | .ok (sid, db1) =>
    (.inserted, insertClaudeMessages db1 sid s.Messages)

/-- TrackClaudeSession from internal/tracker/sqlite.go. -/
def trackClaudeSession (db : DBState) (s : ClaudeSession) : TrackOutcome × DBState :=
  match getSessionByExternalID db s.ID with
  | some existing =>
    if s.Messages.length > 0 then
      if getMessageCountBySessionID db existing.ID = 0 then
        (.backfilled s.ID, insertClaudeMessages db existing.ID s.Messages)
      else (.alreadyTracked s.ID, db)
    else (.alreadyTracked s.ID, db)
  | none => trackClaudeSessionInsertPath db s

/-- The tally buckets of the sync loop in cmd/root.go. -/
inductive SyncBucket where
  | tracked
  | backfilled
  | skipped
  deriving Repr, DecidableEq

/-- How runSync in cmd/root.go classifies a track outcome: nil error counts
as tracked, the backfill sentinel as backfilled, the already-tracked sentinel
as skipped, and every other error also as skipped. -/
def syncBucket : TrackOutcome → SyncBucket
  | .inserted => .tracked
  | .backfilled _ => .backfilled
  | .alreadyTracked _ => .skipped
  | .error _ => .skipped

theorem captureIdentity_Provider (s : ClaudeSession) (e : ClaudeEntry) :
    (captureIdentity s e).Provider = s.Provider := by
  simp [captureIdentity, apply_ite (f := ClaudeSession.Provider)]

theorem messagePhase_Provider (s : ClaudeSession) (e : ClaudeEntry) :
    (messagePhase s e).2.2.Provider = s.Provider := by
  cases hm : e.message with
  | none => simp [messagePhase, hm]
  | some m =>
    cases hu : m.usage <;>
      simp [messagePhase, hm, hu, apply_ite (f := ClaudeSession.Provider)]

theorem switchPhase_Provider (s : ClaudeSession) (e : ClaudeEntry) (mc mr : String) :
    (switchPhase s e mc mr).Provider = s.Provider := by
  simp [switchPhase, apply_ite (f := ClaudeSession.Provider)]

theorem applyClaudeEntry_Provider (s : ClaudeSession) (e : ClaudeEntry) :
    (applyClaudeEntry s e).Provider = s.Provider := by
  unfold applyClaudeEntry
  rw [switchPhase_Provider, messagePhase_Provider, captureIdentity_Provider]

theorem claudeFold_Provider (entries : List ClaudeEntry) (acc : ClaudeSession × Int × Int) :
    (entries.foldl claudeStep acc).1.Provider = acc.1.Provider := by
  induction entries generalizing acc with
  | nil => rfl
  | cons e rest ih =>
    rw [List.foldl_cons, ih]
    exact applyClaudeEntry_Provider acc.1 e

/-- Claim C9: for every input file, regardless of its contents (including
empty files and files with no parseable records), the CLAUDE parser returns
a session whose Provider field equals the string anthropic; no record in the
file can change it. -/
theorem claude_provider_always_anthropic (entries : List ClaudeEntry) :
    (parseClaudeEntries entries).Provider = "anthropic" := by
  unfold parseClaudeEntries
  simp [claudeFold_Provider]

theorem estimateTokens_EndedAt (s : CodexSession) :
    (estimateTokens s).EndedAt = s.EndedAt := by
  simp [estimateTokens]

theorem parseCodex_EndedAt (entries : List CodexEntry) :
    (parseCodexEntries entries).EndedAt =
      some (entries.foldl codexStep (({} : CodexSession), 0, 0)).2.2 := by
  simp only [parseCodexEntries]
  split
  · rw [estimateTokens_EndedAt]
  · rfl

theorem parseClaude_EndedAt (entries : List ClaudeEntry) :
    (parseClaudeEntries entries).EndedAt =
      some (entries.foldl claudeStep (({ Provider := "anthropic" } : ClaudeSession), 0, 0)).2.2 := by
  unfold parseClaudeEntries
  rfl

/-- Claim C10: both parsers always return a non-null EndedAt pointer, and on
an empty (or wholly undecodable, hence entryless) file it points at the zero
timestamp. -/
theorem parsers_endedAt_never_null (ces : List CodexEntry) (cls : List ClaudeEntry) :
    (parseCodexEntries ces).EndedAt.isSome = true ∧
    (parseClaudeEntries cls).EndedAt.isSome = true ∧
    (parseCodexEntries []).EndedAt = some 0 ∧
    (parseClaudeEntries []).EndedAt = some 0 := by
  refine ⟨?_, ?_, by decide, by decide⟩
  · rw [parseCodex_EndedAt]; rfl
  · rw [parseClaude_EndedAt]; rfl

theorem captureIdentity_ID (s : ClaudeSession) (e : ClaudeEntry) :
    (captureIdentity s e).ID =
      if s.ID == "" && effectiveSessionId e ≠ "" then effectiveSessionId e else s.ID := by
  simp only [captureIdentity]
  repeat' rw [apply_ite (f := ClaudeSession.ID)]
  simp [apply_ite (f := ClaudeSession.ID)]

theorem captureIdentity_ProjectPath (s : ClaudeSession) (e : ClaudeEntry) :
    (captureIdentity s e).ProjectPath =
      if s.ProjectPath == "" && effectiveProject e ≠ "" then effectiveProject e else s.ProjectPath := by
  simp [captureIdentity, apply_ite (f := ClaudeSession.ProjectPath)]

theorem messagePhase_ID (s : ClaudeSession) (e : ClaudeEntry) :
    (messagePhase s e).2.2.ID = s.ID := by
  cases hm : e.message with
  | none => simp [messagePhase, hm]
  | some m =>
    cases hu : m.usage <;>
      simp [messagePhase, hm, hu, apply_ite (f := ClaudeSession.ID)]

theorem messagePhase_ProjectPath (s : ClaudeSession) (e : ClaudeEntry) :
    (messagePhase s e).2.2.ProjectPath = s.ProjectPath := by
  cases hm : e.message with
  | none => simp [messagePhase, hm]
  | some m =>
    cases hu : m.usage <;>
      simp [messagePhase, hm, hu, apply_ite (f := ClaudeSession.ProjectPath)]

theorem switchPhase_ID (s : ClaudeSession) (e : ClaudeEntry) (mc mr : String) :
    (switchPhase s e mc mr).ID = s.ID := by
  simp [switchPhase, apply_ite (f := ClaudeSession.ID)]

theorem switchPhase_ProjectPath (s : ClaudeSession) (e : ClaudeEntry) (mc mr : String) :
    (switchPhase s e mc mr).ProjectPath = s.ProjectPath := by
  simp [switchPhase, apply_ite (f := ClaudeSession.ProjectPath)]

theorem applyClaudeEntry_ID (s : ClaudeSession) (e : ClaudeEntry) :
    (applyClaudeEntry s e).ID =
      if s.ID == "" && effectiveSessionId e ≠ "" then effectiveSessionId e else s.ID := by
  unfold applyClaudeEntry
  rw [switchPhase_ID, messagePhase_ID, captureIdentity_ID]

theorem applyClaudeEntry_ProjectPath (s : ClaudeSession) (e : ClaudeEntry) :
    (applyClaudeEntry s e).ProjectPath =
      if s.ProjectPath == "" && effectiveProject e ≠ "" then effectiveProject e else s.ProjectPath := by
  unfold applyClaudeEntry
  rw [switchPhase_ProjectPath, messagePhase_ProjectPath, captureIdentity_ProjectPath]

/-- The first non-empty value of a string field across the entry list
(empty string when no entry supplies one). -/
def firstNonEmptyBy (f : ClaudeEntry → String) : List ClaudeEntry → String
  | [] => ""
  | e :: rest => if f e ≠ "" then f e else firstNonEmptyBy f rest

theorem claudeFold_ID (entries : List ClaudeEntry) (acc : ClaudeSession × Int × Int) :
    (entries.foldl claudeStep acc).1.ID =
      if acc.1.ID = "" then firstNonEmptyBy effectiveSessionId entries else acc.1.ID := by
  induction entries generalizing acc with
  | nil =>
    by_cases h : acc.1.ID = "" <;> simp [h, firstNonEmptyBy]
  | cons e rest ih =>
    rw [List.foldl_cons, ih]
    show (if (applyClaudeEntry acc.1 e).ID = "" then _ else (applyClaudeEntry acc.1 e).ID) = _
    rw [applyClaudeEntry_ID]
    by_cases h1 : acc.1.ID = "" <;> by_cases h2 : effectiveSessionId e = "" <;>
      simp [h1, h2, firstNonEmptyBy]

theorem claudeFold_ProjectPath (entries : List ClaudeEntry) (acc : ClaudeSession × Int × Int) :
    (entries.foldl claudeStep acc).1.ProjectPath =
      if acc.1.ProjectPath = "" then firstNonEmptyBy effectiveProject entries else acc.1.ProjectPath := by
  induction entries generalizing acc with
  | nil =>
    by_cases h : acc.1.ProjectPath = "" <;> simp [h, firstNonEmptyBy]
  | cons e rest ih =>
    rw [List.foldl_cons, ih]
    show (if (applyClaudeEntry acc.1 e).ProjectPath = "" then _
          else (applyClaudeEntry acc.1 e).ProjectPath) = _
    rw [applyClaudeEntry_ProjectPath]
    by_cases h1 : acc.1.ProjectPath = "" <;> by_cases h2 : effectiveProject e = "" <;>
      simp [h1, h2, firstNonEmptyBy]

/-- Claim C7: the claude parser captures externalId and projectPath on first
occurrence only — the parsed session carries, for each of the two fields, the
value of the first record that supplied a non-empty one (falling back to the
legacy aliases), and later records never overwrite it. -/
theorem claude_identity_first_wins (entries : List ClaudeEntry) :
    (parseClaudeEntries entries).ID = firstNonEmptyBy effectiveSessionId entries ∧
    (parseClaudeEntries entries).ProjectPath = firstNonEmptyBy effectiveProject entries := by
  unfold parseClaudeEntries
  constructor
  · show (List.foldl claudeStep _ entries).1.ID = _
    rw [claudeFold_ID]
    rfl
  · show (List.foldl claudeStep _ entries).1.ProjectPath = _
    rw [claudeFold_ProjectPath]
    rfl

theorem applyCodexEntry_ID (s : CodexSession) (ts : Int) (ev : CodexEvent) :
    (applyCodexEntry s ts ev).ID =
      match ev with
      | .sessionMeta id _ _ _ _ => id.getD s.ID
      | _ => s.ID := by
  cases ev with
  | sessionMeta id cwd mp orig mts => rfl
  | turnContext m => rfl
  | responseItem rtype role content =>
    simp [applyCodexEntry, apply_ite (f := CodexSession.ID)]
  | eventMsg etype name ij usage =>
    cases usage <;>
      simp [applyCodexEntry, apply_ite (f := CodexSession.ID),
        apply_ite (f := CodexSession.Tokens)]
  | other => rfl

/-- One step of the id projection of the codex loop: a session_meta record
whose payload carries a string id overwrites the running value. -/
def lastMetaIdStep (d : String) (e : CodexEntry) : String :=
  match e.ev with
  | .sessionMeta id _ _ _ _ => id.getD d
  | _ => d

/-- The id the codex parser ends up with: the last session_meta-supplied id
(empty when none occurs). -/
def lastMetaId (entries : List CodexEntry) : String :=
  entries.foldl lastMetaIdStep ""

theorem codexFold_ID (entries : List CodexEntry) (acc : CodexSession × Int × Int) :
    (entries.foldl codexStep acc).1.ID = entries.foldl lastMetaIdStep acc.1.ID := by
  induction entries generalizing acc with
  | nil => rfl
  | cons e rest ih =>
    rw [List.foldl_cons, List.foldl_cons, ih]
    show (List.foldl lastMetaIdStep (applyCodexEntry acc.1 e.ts e.ev).ID rest) = _
    rw [applyCodexEntry_ID]
    rfl

theorem estimateTokens_ID (s : CodexSession) : (estimateTokens s).ID = s.ID := by
  simp [estimateTokens]

/-- Amended claim C6: the codex parser applies session_meta ids last-wins —
the parsed externalId equals the id supplied by the last session_meta record
whose payload carries a string id, not the first. -/
theorem codex_id_last_wins (entries : List CodexEntry) :
    (parseCodexEntries entries).ID = lastMetaId entries := by
  simp only [parseCodexEntries]
  split
  · rw [estimateTokens_ID]
    exact codexFold_ID entries _
  · exact codexFold_ID entries _

/-- Counterexample to claim C6 as stated: a codex file with two session_meta
records carrying the distinct non-empty ids id-a then id-b parses to
externalId id-b — the later record overwrites the earlier one, so the id is
not set-once on first occurrence. -/
theorem codex_id_counterexample :
    (parseCodexEntries
      [⟨1, .sessionMeta (some "id-a") none none none none⟩,
       ⟨2, .sessionMeta (some "id-b") none none none none⟩]).ID = "id-b" ∧
    (parseCodexEntries
      [⟨1, .sessionMeta (some "id-a") none none none none⟩,
       ⟨2, .sessionMeta (some "id-b") none none none none⟩]).ID ≠ "id-a" := by
  constructor
  · decide
  · decide

/-- The record is a token_count event whose payload supplies a nonzero
total_tokens value. -/
def suppliesNonzeroTotal (ev : CodexEvent) : Bool :=
  match ev with
  | .eventMsg etype _ _ (some u) =>
    etype == some "token_count" &&
      (match u.totalTokens with | some v => v != 0 | none => false)
  | _ => false

/-- The record is a token_count event whose payload supplies a nonzero
cached_input_tokens or reasoning_output_tokens value. -/
def suppliesNonzeroCachedOrReasoning (ev : CodexEvent) : Bool :=
  match ev with
  | .eventMsg etype _ _ (some u) =>
    etype == some "token_count" &&
      ((match u.cachedInputTokens with | some v => v != 0 | none => false) ||
       (match u.reasoningOutputTokens with | some v => v != 0 | none => false))
  | _ => false

theorem applyCodexEntry_Total_zero (s : CodexSession) (ts : Int) (ev : CodexEvent)
    (h : suppliesNonzeroTotal ev = false) (h0 : s.Tokens.Total = 0) :
    (applyCodexEntry s ts ev).Tokens.Total = 0 := by
  cases ev with
  | sessionMeta id cwd mp orig mts => exact h0
  | turnContext m => exact h0
  | responseItem rtype role content =>
    simp only [applyCodexEntry]
    repeat' split
    all_goals exact h0
  | eventMsg etype name ij usage =>
    cases usage with
    | none =>
      simp only [applyCodexEntry]
      repeat' split
      all_goals exact h0
    | some u =>
      simp only [suppliesNonzeroTotal, Bool.and_eq_false_iff] at h
      simp only [applyCodexEntry]
      rcases h with h | h
      · rw [if_neg (by simp [h])]
        split
        all_goals exact h0
      · split
        · cases hv : u.totalTokens with
          | none =>
            simp only [applyCodexUsage, hv, Option.getD_none]
            split
            all_goals exact h0
          | some v =>
            rw [hv] at h
            simp only [bne_eq_false_iff_eq] at h
            simp only [applyCodexUsage, hv, Option.getD_some]
            exact h
        · split
          all_goals exact h0
  | other => exact h0

theorem applyCodexEntry_Cached_Reasoning_zero (s : CodexSession) (ts : Int) (ev : CodexEvent)
    (h : suppliesNonzeroCachedOrReasoning ev = false)
    (h0 : s.Tokens.Cached = 0 ∧ s.Tokens.Reasoning = 0) :
    (applyCodexEntry s ts ev).Tokens.Cached = 0 ∧ (applyCodexEntry s ts ev).Tokens.Reasoning = 0 := by
  cases ev with
  | sessionMeta id cwd mp orig mts => exact h0
  | turnContext m => exact h0
  | responseItem rtype role content =>
    simp only [applyCodexEntry]
    repeat' split
    all_goals exact h0
  | eventMsg etype name ij usage =>
    cases usage with
    | none =>
      simp only [applyCodexEntry]
      repeat' split
      all_goals exact h0
    | some u =>
      simp only [suppliesNonzeroCachedOrReasoning, Bool.and_eq_false_iff] at h
      simp only [applyCodexEntry]
      rcases h with h | h
      · rw [if_neg (by simp [h])]
        split
        all_goals exact h0
      · simp only [Bool.or_eq_false_iff] at h
        split
        · constructor
          · cases hv : u.cachedInputTokens with
            | none =>
              simp only [applyCodexUsage, hv, Option.getD_none]
              split
              all_goals exact h0.1
            | some v =>
              rw [hv] at h
              have hz : v = 0 := by simpa [bne_eq_false_iff_eq] using h.1
              simp only [applyCodexUsage, hv, Option.getD_some]
              exact hz
          · cases hv : u.reasoningOutputTokens with
            | none =>
              simp only [applyCodexUsage, hv, Option.getD_none]
              split
              all_goals exact h0.2
            | some v =>
              rw [hv] at h
              have hz : v = 0 := by simpa [bne_eq_false_iff_eq] using h.2
              simp only [applyCodexUsage, hv, Option.getD_some]
              exact hz
        · split
          all_goals exact h0
  | other => exact h0

theorem applyCodexEntry_CacheCreation_CacheRead (s : CodexSession) (ts : Int) (ev : CodexEvent) :
    (applyCodexEntry s ts ev).Tokens.CacheCreation = s.Tokens.CacheCreation ∧
    (applyCodexEntry s ts ev).Tokens.CacheRead = s.Tokens.CacheRead := by
  cases ev with
  | sessionMeta id cwd mp orig mts => exact ⟨rfl, rfl⟩
  | turnContext m => exact ⟨rfl, rfl⟩
  | responseItem rtype role content =>
    simp only [applyCodexEntry]
    repeat' split
    all_goals exact ⟨rfl, rfl⟩
  | eventMsg etype name ij usage =>
    cases usage with
    | none =>
      simp only [applyCodexEntry]
      repeat' split
      all_goals exact ⟨rfl, rfl⟩
    | some u =>
      simp only [applyCodexEntry]
      repeat' split
      all_goals exact ⟨rfl, rfl⟩
  | other => exact ⟨rfl, rfl⟩

theorem codexFold_Total_zero (entries : List CodexEntry) (acc : CodexSession × Int × Int)
    (h : ∀ e ∈ entries, suppliesNonzeroTotal e.ev = false) (h0 : acc.1.Tokens.Total = 0) :
    (entries.foldl codexStep acc).1.Tokens.Total = 0 := by
  induction entries generalizing acc with
  | nil => exact h0
  | cons e rest ih =>
    rw [List.foldl_cons]
    exact ih _ (fun x hx => h x (List.mem_cons_of_mem e hx))
      (applyCodexEntry_Total_zero acc.1 e.ts e.ev (h e (List.mem_cons_self e rest)) h0)

theorem codexFold_Cached_Reasoning_zero (entries : List CodexEntry) (acc : CodexSession × Int × Int)
    (h : ∀ e ∈ entries, suppliesNonzeroCachedOrReasoning e.ev = false)
    (h0 : acc.1.Tokens.Cached = 0 ∧ acc.1.Tokens.Reasoning = 0) :
    (entries.foldl codexStep acc).1.Tokens.Cached = 0 ∧
    (entries.foldl codexStep acc).1.Tokens.Reasoning = 0 := by
  induction entries generalizing acc with
  | nil => exact h0
  | cons e rest ih =>
    rw [List.foldl_cons]
    exact ih _ (fun x hx => h x (List.mem_cons_of_mem e hx))
      (applyCodexEntry_Cached_Reasoning_zero acc.1 e.ts e.ev (h e (List.mem_cons_self e rest)) h0)

theorem codexFold_CacheCreation_CacheRead (entries : List CodexEntry) (acc : CodexSession × Int × Int) :
    (entries.foldl codexStep acc).1.Tokens.CacheCreation = acc.1.Tokens.CacheCreation ∧
    (entries.foldl codexStep acc).1.Tokens.CacheRead = acc.1.Tokens.CacheRead := by
  induction entries generalizing acc with
  | nil => exact ⟨rfl, rfl⟩
  | cons e rest ih =>
    rw [List.foldl_cons]
    have step := applyCodexEntry_CacheCreation_CacheRead acc.1 e.ts e.ev
    have rest' := ih (codexStep acc e)
    exact ⟨rest'.1.trans step.1, rest'.2.trans step.2⟩

/-- Amended claim C5: when no token_count event supplied a nonzero total, the
codex parser estimates tokens from transcript character lengths — user and
developer characters as input, all other roles as output, each divided by 4
truncating, total their sum, cost the flat input/output rule — and the
estimation path leaves the cache/reasoning counters untouched, so they are
zero provided no token_count event set them nonzero (rather than
unconditionally zero as originally claimed). -/
theorem codex_token_estimation (entries : List CodexEntry)
    (h1 : ∀ e ∈ entries, suppliesNonzeroTotal e.ev = false) :
    (parseCodexEntries entries).Tokens.Input =
      ((inputCharsOf (parseCodexEntries entries).Messages / 4 : Nat) : Int) ∧
    (parseCodexEntries entries).Tokens.Output =
      ((outputCharsOf (parseCodexEntries entries).Messages / 4 : Nat) : Int) ∧
    (parseCodexEntries entries).Tokens.Total =
      (parseCodexEntries entries).Tokens.Input + (parseCodexEntries entries).Tokens.Output ∧
    (parseCodexEntries entries).Cost =
      codexCost (parseCodexEntries entries).Tokens.Input (parseCodexEntries entries).Tokens.Output ∧
    (parseCodexEntries entries).Tokens.CacheCreation = 0 ∧
    (parseCodexEntries entries).Tokens.CacheRead = 0 ∧
    ((∀ e ∈ entries, suppliesNonzeroCachedOrReasoning e.ev = false) →
      (parseCodexEntries entries).Tokens.Cached = 0 ∧
      (parseCodexEntries entries).Tokens.Reasoning = 0) := by
  have hT : (entries.foldl codexStep (({} : CodexSession), 0, 0)).1.Tokens.Total = 0 :=
    codexFold_Total_zero entries _ h1 rfl
  simp only [parseCodexEntries]
  split
  · refine ⟨rfl, rfl, rfl, rfl, ?_, ?_, ?_⟩
    · exact (codexFold_CacheCreation_CacheRead entries _).1
    · exact (codexFold_CacheCreation_CacheRead entries _).2
    · intro h2
      exact codexFold_Cached_Reasoning_zero entries _ (fun e he => h2 e he) ⟨rfl, rfl⟩
  · next hfalse => exact absurd hT hfalse

/-- The three-message codex transcript used to witness the estimation rule
(10 input characters, 13 output characters). -/
def estDemoEntries : List CodexEntry :=
  [⟨5, .responseItem "message" "developer" [⟨"output_text", "Hello"⟩]⟩,
   ⟨6, .responseItem "message" "user" [⟨"input_text", "World"⟩]⟩,
   ⟨7, .responseItem "message" "assistant" [⟨"output_text", "Response text"⟩]⟩]

theorem codex_token_estimation_witness :
    (∀ e ∈ estDemoEntries, suppliesNonzeroTotal e.ev = false) ∧
    ((parseCodexEntries estDemoEntries).Tokens.Input =
      ((inputCharsOf (parseCodexEntries estDemoEntries).Messages / 4 : Nat) : Int) ∧
     (parseCodexEntries estDemoEntries).Tokens.Output =
      ((outputCharsOf (parseCodexEntries estDemoEntries).Messages / 4 : Nat) : Int) ∧
     (parseCodexEntries estDemoEntries).Tokens.Total =
      (parseCodexEntries estDemoEntries).Tokens.Input + (parseCodexEntries estDemoEntries).Tokens.Output ∧
     (parseCodexEntries estDemoEntries).Cost =
      codexCost (parseCodexEntries estDemoEntries).Tokens.Input
        (parseCodexEntries estDemoEntries).Tokens.Output ∧
     (parseCodexEntries estDemoEntries).Tokens.CacheCreation = 0 ∧
     (parseCodexEntries estDemoEntries).Tokens.CacheRead = 0 ∧
     ((∀ e ∈ estDemoEntries, suppliesNonzeroCachedOrReasoning e.ev = false) →
       (parseCodexEntries estDemoEntries).Tokens.Cached = 0 ∧
       (parseCodexEntries estDemoEntries).Tokens.Reasoning = 0)) ∧
    (parseCodexEntries estDemoEntries).Tokens.Input = 2 ∧
    (parseCodexEntries estDemoEntries).Tokens.Output = 3 ∧
    (parseCodexEntries estDemoEntries).Tokens.Total = 5 ∧
    (parseCodexEntries estDemoEntries).Cost = codexCost 2 3 :=
  ⟨by decide, codex_token_estimation estDemoEntries (by decide),
   by decide, by decide, by decide, by decide⟩

/-- Counterexample to claim C5 as stated: a codex file whose only
token_count event supplies no total (so the premise that no token_count
supplied a nonzero total holds, and the estimated path runs) but carries
cached_input_tokens 20 — the parsed session's cached counter is 20, not
zero, so the cache fields do not stay zero on the estimated path. -/
theorem codex_token_estimation_counterexample :
    (∀ e ∈ ([⟨1, .eventMsg (some "token_count") none "null"
                  (some { cachedInputTokens := some 20 })⟩] : List CodexEntry),
        suppliesNonzeroTotal e.ev = false) ∧
    (parseCodexEntries
      [⟨1, .eventMsg (some "token_count") none "null"
            (some { cachedInputTokens := some 20 })⟩]).Tokens.Total = 0 ∧
    (parseCodexEntries
      [⟨1, .eventMsg (some "token_count") none "null"
            (some { cachedInputTokens := some 20 })⟩]).Tokens.Cached = 20 := by
  refine ⟨by decide, by decide, by decide⟩

/-- Claim C4: the claude session cost is the IEEE-754 double evaluation of
input*3/1e6 + cacheCreation*3.75/1e6 + cacheRead*0.30/1e6 + output*15/1e6
(each operation correctly rounded, no other rounding), and for tokens
input 1000, output 500, cacheCreation 200, cacheRead 100 it equals exactly
the double literal 0.01128. -/
theorem claude_cost_exact :
    (∀ entries : List ClaudeEntry,
      (parseClaudeEntries entries).Cost = calculateClaudeCost (parseClaudeEntries entries).Tokens) ∧
    qEquiv (calculateClaudeCost { Input := 1000, Output := 500, CacheCreation := 200, CacheRead := 100 })
      (flit 1128 100000) :=
  ⟨fun _ => rfl, by decide⟩

/-- The tool-call rows the insert path creates for session sid, with
consecutive autoincrement ids from nid. -/
def mkCodexToolCallRows (sid nid : Int) : List CodexToolCall → List ToolCallRow
  | [] => []
  | t :: ts =>
    { ID := nid, SessionID := sid, ToolName := t.ToolName, Arguments := t.Arguments,
      Result := t.Result, Timestamp := t.Timestamp }
      :: mkCodexToolCallRows sid (nid + 1) ts

theorem insertCodexMessages_spec (sid : Int) (ms : List CodexMessage) (db : DBState) :
    insertCodexMessages db sid ms =
      { db with
        messages := db.messages ++ mkCodexMessageRows sid db.nextMessageId ms
        nextMessageId := db.nextMessageId + ms.length } := by
  induction ms generalizing db with
  | nil => simp [insertCodexMessages, mkCodexMessageRows]
  | cons m rest ih =>
    simp only [insertCodexMessages, insertMessage, mkCodexMessageRows]
    rw [ih]
    congr 1
    · simp
    · simp [List.length_cons]
      omega

theorem insertClaudeMessages_spec (sid : Int) (ms : List ClaudeMessage) (db : DBState) :
    insertClaudeMessages db sid ms =
      { db with
        messages := db.messages ++ mkClaudeMessageRows sid db.nextMessageId ms
        nextMessageId := db.nextMessageId + ms.length } := by
  induction ms generalizing db with
  | nil => simp [insertClaudeMessages, mkClaudeMessageRows]
  | cons m rest ih =>
    simp only [insertClaudeMessages, insertMessage, mkClaudeMessageRows]
    rw [ih]
    congr 1
    · simp
    · simp [List.length_cons]
      omega

theorem insertCodexToolCalls_spec (sid : Int) (ts : List CodexToolCall) (db : DBState) :
    insertCodexToolCalls db sid ts =
      { db with
        toolCalls := db.toolCalls ++ mkCodexToolCallRows sid db.nextToolCallId ts
        nextToolCallId := db.nextToolCallId + ts.length } := by
  induction ts generalizing db with
  | nil => simp [insertCodexToolCalls, mkCodexToolCallRows]
  | cons t rest ih =>
    simp only [insertCodexToolCalls, insertToolCall, mkCodexToolCallRows]
    rw [ih]
    congr 1
    · simp
    · simp [List.length_cons]
      omega

theorem mkCodexMessageRows_length (sid nid : Int) (ms : List CodexMessage) :
    (mkCodexMessageRows sid nid ms).length = ms.length := by
  induction ms generalizing nid with
  | nil => rfl
  | cons m rest ih => simp [mkCodexMessageRows, ih]

theorem mkCodexMessageRows_sessionId (sid nid : Int) (ms : List CodexMessage) :
    ∀ r ∈ mkCodexMessageRows sid nid ms, r.SessionID = sid := by
  induction ms generalizing nid with
  | nil => simp [mkCodexMessageRows]
  | cons m rest ih =>
    intro r hr
    rcases List.mem_cons.mp hr with h | h
    · rw [h]
    · exact ih (nid + 1) r h

theorem mkCodexMessageRows_fields (sid nid : Int) (ms : List CodexMessage) :
    (mkCodexMessageRows sid nid ms).map (fun r => (r.Role, r.Content, r.Timestamp)) =
      ms.map (fun m => (m.Role, m.Content, m.Timestamp)) := by
  induction ms generalizing nid with
  | nil => rfl
  | cons m rest ih => simp [mkCodexMessageRows, ih]

theorem mkClaudeMessageRows_length (sid nid : Int) (ms : List ClaudeMessage) :
    (mkClaudeMessageRows sid nid ms).length = ms.length := by
  induction ms generalizing nid with
  | nil => rfl
  | cons m rest ih => simp [mkClaudeMessageRows, ih]

theorem mkClaudeMessageRows_sessionId (sid nid : Int) (ms : List ClaudeMessage) :
    ∀ r ∈ mkClaudeMessageRows sid nid ms, r.SessionID = sid := by
  induction ms generalizing nid with
  | nil => simp [mkClaudeMessageRows]
  | cons m rest ih =>
    intro r hr
    rcases List.mem_cons.mp hr with h | h
    · rw [h]
    · exact ih (nid + 1) r h

theorem mkClaudeMessageRows_fields (sid nid : Int) (ms : List ClaudeMessage) :
    (mkClaudeMessageRows sid nid ms).map (fun r => (r.Role, r.Content, r.Timestamp)) =
      ms.map (fun m => (m.Role, m.Content, m.Timestamp)) := by
  induction ms generalizing nid with
  | nil => rfl
  | cons m rest ih => simp [mkClaudeMessageRows, ih]

/-- Claim C1: when a stored session with the incoming externalId exists and
has zero stored message rows, and the incoming parse has messages,
reconciling yields Backfilled and only appends the parsed messages as child
rows of the existing session: the sessions table (hence every scalar field
of the existing row) and the tool_calls table are untouched, and the new
message rows are exactly the N parsed messages, all children of the existing
row.  Stated for both TrackSession and TrackClaudeSession. -/
theorem backfill_inserts_only_messages :
    (∀ (db : DBState) (s : CodexSession) (r : SessionRow),
      getSessionByExternalID db s.ID = some r →
      getMessageCountBySessionID db r.ID = 0 →
      s.Messages ≠ [] →
      trackSession db s =
        (.backfilled s.ID,
         { db with
           messages := db.messages ++ mkCodexMessageRows r.ID db.nextMessageId s.Messages
           nextMessageId := db.nextMessageId + s.Messages.length }) ∧
      (mkCodexMessageRows r.ID db.nextMessageId s.Messages).length = s.Messages.length ∧
      (∀ m ∈ mkCodexMessageRows r.ID db.nextMessageId s.Messages, m.SessionID = r.ID) ∧
      (mkCodexMessageRows r.ID db.nextMessageId s.Messages).map
          (fun m => (m.Role, m.Content, m.Timestamp)) =
        s.Messages.map (fun m => (m.Role, m.Content, m.Timestamp))) ∧
    (∀ (db : DBState) (s : ClaudeSession) (r : SessionRow),
      getSessionByExternalID db s.ID = some r →
      getMessageCountBySessionID db r.ID = 0 →
      s.Messages ≠ [] →
      trackClaudeSession db s =
        (.backfilled s.ID,
         { db with
           messages := db.messages ++ mkClaudeMessageRows r.ID db.nextMessageId s.Messages
           nextMessageId := db.nextMessageId + s.Messages.length }) ∧
      (mkClaudeMessageRows r.ID db.nextMessageId s.Messages).length = s.Messages.length ∧
      (∀ m ∈ mkClaudeMessageRows r.ID db.nextMessageId s.Messages, m.SessionID = r.ID) ∧
      (mkClaudeMessageRows r.ID db.nextMessageId s.Messages).map
          (fun m => (m.Role, m.Content, m.Timestamp)) =
        s.Messages.map (fun m => (m.Role, m.Content, m.Timestamp))) := by
  constructor
  · intro db s r h1 h2 h3
    refine ⟨?_, mkCodexMessageRows_length r.ID db.nextMessageId s.Messages,
      mkCodexMessageRows_sessionId r.ID db.nextMessageId s.Messages,
      mkCodexMessageRows_fields r.ID db.nextMessageId s.Messages⟩
    rw [trackSession, h1]
    dsimp only
    rw [if_pos (List.length_pos.mpr h3), if_pos h2, insertCodexMessages_spec]
  · intro db s r h1 h2 h3
    refine ⟨?_, mkClaudeMessageRows_length r.ID db.nextMessageId s.Messages,
      mkClaudeMessageRows_sessionId r.ID db.nextMessageId s.Messages,
      mkClaudeMessageRows_fields r.ID db.nextMessageId s.Messages⟩
    rw [trackClaudeSession, h1]
    dsimp only
    rw [if_pos (List.length_pos.mpr h3), if_pos h2, insertClaudeMessages_spec]

/-- A one-row store whose session w1 has no message rows, used to witness the
backfill theorem. -/
def backfillDemoDB : DBState :=
  { sessions := [{ ID := 1, ExternalID := "w1", Source := "codex", StartedAt := 10,
                   InputTokens := 7, TotalTokens := 7, Cost := ⟨7, 2⟩ }]
    nextSessionId := 2 }

theorem backfill_inserts_only_messages_witness :
    (getSessionByExternalID backfillDemoDB "w1" =
      some { ID := 1, ExternalID := "w1", Source := "codex", StartedAt := 10,
             InputTokens := 7, TotalTokens := 7, Cost := ⟨7, 2⟩ } ∧
     getMessageCountBySessionID backfillDemoDB 1 = 0 ∧
     ([({ Role := "user", Content := "hi", Timestamp := 11 } : CodexMessage)] ≠ [])) ∧
    trackSession backfillDemoDB { ID := "w1", Messages := [{ Role := "user", Content := "hi", Timestamp := 11 }] } =
      (.backfilled "w1",
       { backfillDemoDB with
         messages := backfillDemoDB.messages ++
           mkCodexMessageRows 1 backfillDemoDB.nextMessageId
             [{ Role := "user", Content := "hi", Timestamp := 11 }]
         nextMessageId := backfillDemoDB.nextMessageId +
           ([({ Role := "user", Content := "hi", Timestamp := 11 } : CodexMessage)]).length }) :=
  ⟨⟨by decide, by decide, by decide⟩,
   ((backfill_inserts_only_messages.1 backfillDemoDB
      { ID := "w1", Messages := [{ Role := "user", Content := "hi", Timestamp := 11 }] }
      { ID := 1, ExternalID := "w1", Source := "codex", StartedAt := 10,
        InputTokens := 7, TotalTokens := 7, Cost := ⟨7, 2⟩ }
      (by decide) (by decide) (by decide)).1)⟩

theorem find?_append_of_none {α : Type} (p : α → Bool) (l1 l2 : List α)
    (h : l1.find? p = none) : (l1 ++ l2).find? p = l2.find? p := by
  induction l1 with
  | nil => rfl
  | cons a rest ih =>
    rw [List.find?_cons] at h
    rw [List.cons_append, List.find?_cons]
    cases hp : p a with
    | true => simp [hp] at h
    | false =>
      simp only [hp] at h ⊢
      exact ih h

theorem trackSessionInsertPath_spec (db : DBState) (s : CodexSession)
    (h : db.sessions.any (fun r => r.ExternalID == s.ID) = false) :
    trackSessionInsertPath db s =
      (.inserted,
       { db with
         sessions := db.sessions ++ [{ codexSessionRow s with ID := db.nextSessionId }]
         messages := db.messages ++ mkCodexMessageRows db.nextSessionId db.nextMessageId s.Messages
         toolCalls := db.toolCalls ++ mkCodexToolCallRows db.nextSessionId db.nextToolCallId s.ToolCalls
         nextSessionId := db.nextSessionId + 1
         nextMessageId := db.nextMessageId + s.Messages.length
         nextToolCallId := db.nextToolCallId + s.ToolCalls.length }) := by
  rw [trackSessionInsertPath, insertSession]
  rw [if_neg (by simp [h, codexSessionRow])]
  dsimp only
  rw [insertCodexMessages_spec, insertCodexToolCalls_spec]

theorem length_filter_mkCodexMessageRows (sid nid : Int) (ms : List CodexMessage) :
    ((mkCodexMessageRows sid nid ms).filter (fun m => m.SessionID == sid)).length = ms.length := by
  induction ms generalizing nid with
  | nil => rfl
  | cons m rest ih => simp [mkCodexMessageRows, List.filter_cons, ih]

/-- Claim C2: reconciling a fresh message-bearing parse twice yields Inserted
then AlreadyTracked; the first run adds exactly one session row, the second
leaves the whole store (sessions, messages, tool calls, counters) unchanged. -/
theorem resync_inserted_then_already_tracked (db : DBState) (s : CodexSession)
    (h1 : getSessionByExternalID db s.ID = none) (h2 : s.Messages ≠ []) :
    (trackSession db s).1 = .inserted ∧
    (trackSession db s).2.sessions.length = db.sessions.length + 1 ∧
    (trackSession (trackSession db s).2 s).1 = .alreadyTracked s.ID ∧
    (trackSession (trackSession db s).2 s).2 = (trackSession db s).2 := by
  have hany : db.sessions.any (fun r => r.ExternalID == s.ID) = false := by
    rw [List.any_eq_false]
    intro r hr
    have := List.find?_eq_none.mp h1 r hr
    simpa using this
  have hfirst : trackSession db s = trackSessionInsertPath db s := by
    rw [trackSession, h1]
  rw [hfirst, trackSessionInsertPath_spec db s hany]
  refine ⟨rfl, by simp, ?_, ?_⟩
  all_goals {
    rw [trackSession]
    rw [show getSessionByExternalID
          { db with
            sessions := db.sessions ++ [{ codexSessionRow s with ID := db.nextSessionId }]
            messages := db.messages ++ mkCodexMessageRows db.nextSessionId db.nextMessageId s.Messages
            toolCalls := db.toolCalls ++ mkCodexToolCallRows db.nextSessionId db.nextToolCallId s.ToolCalls
            nextSessionId := db.nextSessionId + 1
            nextMessageId := db.nextMessageId + s.Messages.length
            nextToolCallId := db.nextToolCallId + s.ToolCalls.length } s.ID =
        some { codexSessionRow s with ID := db.nextSessionId } from by
      rw [getSessionByExternalID]
      dsimp only
      rw [find?_append_of_none _ _ _ h1]
      simp [List.find?_cons, codexSessionRow]]
    dsimp only
    rw [if_pos (List.length_pos.mpr h2)]
    rw [if_neg (by
      rw [getMessageCountBySessionID]
      dsimp only
      rw [List.filter_append, List.length_append]
      rw [show ((mkCodexMessageRows db.nextSessionId db.nextMessageId s.Messages).filter
            (fun m => m.SessionID == db.nextSessionId)).length = s.Messages.length from
        length_filter_mkCodexMessageRows db.nextSessionId db.nextMessageId s.Messages]
      have hl : 0 < s.Messages.length := List.length_pos.mpr h2
      intro hzero
      omega)]
  }

/-- The fresh message-bearing parse used to witness the resync theorem. -/
def resyncDemoSession : CodexSession :=
  { ID := "s1", Messages := [{ Role := "user", Content := "hi", Timestamp := 3 }] }

theorem resync_inserted_then_already_tracked_witness :
    getSessionByExternalID ({} : DBState) resyncDemoSession.ID = none ∧
    resyncDemoSession.Messages ≠ [] ∧
    ((trackSession {} resyncDemoSession).1 = .inserted ∧
     (trackSession {} resyncDemoSession).2.sessions.length = ({} : DBState).sessions.length + 1 ∧
     (trackSession (trackSession {} resyncDemoSession).2 resyncDemoSession).1 =
       .alreadyTracked resyncDemoSession.ID ∧
     (trackSession (trackSession {} resyncDemoSession).2 resyncDemoSession).2 =
       (trackSession {} resyncDemoSession).2) :=
  ⟨by decide, by decide,
   resync_inserted_then_already_tracked {} resyncDemoSession (by decide) (by decide)⟩

/-- Counterexample to claim C3 as stated: two reconciliation attempts for
externalId race-1 both pass the existence check against the empty store and
both run the insert path; the second insert hits the uniqueness constraint
and TrackSession surfaces the generic wrapped insert error — not an
AlreadyTracked outcome — though the store gains no duplicate row. -/
theorem race_translated_counterexample :
    (trackSessionInsertPath
      ((trackSessionInsertPath ({} : DBState)
          { ID := "race-1", Messages := [{ Role := "user", Content := "go", Timestamp := 1 }] }).2)
      { ID := "race-1", Messages := [{ Role := "user", Content := "go", Timestamp := 1 }] }).1 =
        .error "failed to insert session" ∧
    (trackSessionInsertPath
      ((trackSessionInsertPath ({} : DBState)
          { ID := "race-1", Messages := [{ Role := "user", Content := "go", Timestamp := 1 }] }).2)
      { ID := "race-1", Messages := [{ Role := "user", Content := "go", Timestamp := 1 }] }).1 ≠
        .alreadyTracked "race-1" ∧
    (trackSessionInsertPath
      ((trackSessionInsertPath ({} : DBState)
          { ID := "race-1", Messages := [{ Role := "user", Content := "go", Timestamp := 1 }] }).2)
      { ID := "race-1", Messages := [{ Role := "user", Content := "go", Timestamp := 1 }] }).2 =
        (trackSessionInsertPath ({} : DBState)
          { ID := "race-1", Messages := [{ Role := "user", Content := "go", Timestamp := 1 }] }).2 := by
  refine ⟨by decide, by decide, by decide⟩

/-- Amended claim C3: when a racing insert path runs against a store that
already holds the externalId, the uniqueness violation is caught — the store
is left unchanged (no crash, no silent duplicate row) and the sync loop
counts the outcome in the same skipped tally as AlreadyTracked — but the
reconciler surfaces it as the generic failed-to-insert error, not as the
AlreadyTracked outcome.  Stated for both insert paths. -/
theorem race_caught_as_error_skipped :
    (∀ (db : DBState) (s : CodexSession),
      db.sessions.any (fun r => r.ExternalID == s.ID) = true →
      trackSessionInsertPath db s = (.error "failed to insert session", db) ∧
      syncBucket (trackSessionInsertPath db s).1 = .skipped ∧
      syncBucket (.alreadyTracked s.ID) = .skipped) ∧
    (∀ (db : DBState) (s : ClaudeSession),
      db.sessions.any (fun r => r.ExternalID == s.ID) = true →
      trackClaudeSessionInsertPath db s = (.error "failed to insert session", db) ∧
      syncBucket (trackClaudeSessionInsertPath db s).1 = .skipped ∧
      syncBucket (.alreadyTracked s.ID) = .skipped) := by
  constructor
  · intro db s h
    have heq : trackSessionInsertPath db s = (.error "failed to insert session", db) := by
      rw [trackSessionInsertPath, insertSession]
      rw [if_pos (by simpa [codexSessionRow] using h)]
    exact ⟨heq, by rw [heq]; rfl, rfl⟩
  · intro db s h
    have heq : trackClaudeSessionInsertPath db s = (.error "failed to insert session", db) := by
      rw [trackClaudeSessionInsertPath, insertSession]
      rw [if_pos (by simpa [claudeSessionRow] using h)]
    exact ⟨heq, by rw [heq]; rfl, rfl⟩

/-- A store already holding externalId w1, used to witness the race theorem. -/
def raceDemoDB : DBState :=
  { sessions := [{ ID := 1, ExternalID := "w1", Source := "codex" }], nextSessionId := 2 }

theorem race_caught_as_error_skipped_witness :
    raceDemoDB.sessions.any (fun r => r.ExternalID == "w1") = true ∧
    (trackSessionInsertPath raceDemoDB ({ ID := "w1" } : CodexSession) =
      (.error "failed to insert session", raceDemoDB) ∧
     syncBucket (trackSessionInsertPath raceDemoDB ({ ID := "w1" } : CodexSession)).1 = .skipped ∧
     syncBucket (.alreadyTracked "w1") = .skipped) :=
  ⟨by decide, race_caught_as_error_skipped.1 raceDemoDB { ID := "w1" } (by decide)⟩

/-- The per-row duration term of every duration SUM in the db layer:
CASE WHEN ended_at IS NOT NULL AND ended_at > started_at
THEN ended_at - started_at ELSE 0 END. -/
def durationOf (r : SessionRow) : Int :=
  match r.EndedAt with
  | some e => if r.StartedAt < e then e - r.StartedAt else 0
  | none => 0

/-- SUM of the duration term over the rows matching a WHERE/GROUP filter. -/
def sumDurations (p : SessionRow → Bool) (rows : List SessionRow) : Int :=
  ((rows.filter p).map durationOf).sum

/-- The WHERE clause source = ? AND started_at >= ? shared by the windowed
aggregation queries. -/
def inSourceWindow (source : String) (since : Int) (r : SessionRow) : Bool :=
  r.Source == source && since ≤ r.StartedAt

/-- The total_time column of GetAggregatedStats (and the per-source
total_time of GetPerAgentStats, whose SUM and WHERE/GROUP BY source filter
coincide with it). -/
def aggregatedTotalSessionTime (source : String) (since : Int) (rows : List SessionRow) : Int :=
  sumDurations (inSourceWindow source since) rows

/-- The total_time column of GetAggregatedStatsAll (no source filter). -/
def aggregatedAllTotalSessionTime (since : Int) (rows : List SessionRow) : Int :=
  sumDurations (fun r => since ≤ r.StartedAt) rows

/-- The UTC calendar-day bucket of date(started_at, 'unixepoch'): epoch
seconds floor-divided by 86400. -/
def dayKey (ts : Int) : Int := ts.fdiv 86400

/-- The total_time column of the GetDailySummaries row for one day bucket. -/
def dailySummaryTotalTime (source : String) (since day : Int) (rows : List SessionRow) : Int :=
  sumDurations (fun r => inSourceWindow source since r && (dayKey r.StartedAt == day)) rows

/-- The total_time column of the GetWeeklySummaries row for one week bucket;
the ISO-week strftime bucket function is abstract here (any function of
started_at). -/
def weeklySummaryTotalTime (weekKey : Int → Int) (source : String) (since wk : Int)
    (rows : List SessionRow) : Int :=
  sumDurations (fun r => inSourceWindow source since r && (weekKey r.StartedAt == wk)) rows

theorem sumDurations_middle_zero (p : SessionRow → Bool) (pre post : List SessionRow)
    (r : SessionRow) (h : durationOf r = 0) :
    sumDurations p (pre ++ r :: post) = sumDurations p (pre ++ post) := by
  simp only [sumDurations, List.filter_append, List.filter_cons]
  cases hp : p r <;> simp [List.map_append, List.sum_append, h]

/-- Claim C8: a stored session whose endedAt is null or not after its
startedAt has duration term exactly zero (never negative), and inserting
such a row anywhere in the sessions table leaves every summed-duration
aggregate — the windowed total session time (per source and all sources,
the latter also the per-source breakdown total), and every daily and weekly
bucket total — unchanged. -/
theorem degenerate_sessions_add_zero_duration (r : SessionRow)
    (h : ∀ e, r.EndedAt = some e → e ≤ r.StartedAt) :
    durationOf r = 0 ∧
    ∀ (pre post : List SessionRow) (source : String) (since day wk : Int) (weekKey : Int → Int),
      aggregatedTotalSessionTime source since (pre ++ r :: post) =
        aggregatedTotalSessionTime source since (pre ++ post) ∧
      aggregatedAllTotalSessionTime since (pre ++ r :: post) =
        aggregatedAllTotalSessionTime since (pre ++ post) ∧
      dailySummaryTotalTime source since day (pre ++ r :: post) =
        dailySummaryTotalTime source since day (pre ++ post) ∧
      weeklySummaryTotalTime weekKey source since wk (pre ++ r :: post) =
        weeklySummaryTotalTime weekKey source since wk (pre ++ post) := by
  have hz : durationOf r = 0 := by
    cases hE : r.EndedAt with
    | none => simp [durationOf, hE]
    | some e =>
      have hle := h e hE
      simp [durationOf, hE, Int.not_lt.mpr hle]
  refine ⟨hz, fun pre post source since day wk weekKey => ?_⟩
  exact ⟨sumDurations_middle_zero _ pre post r hz, sumDurations_middle_zero _ pre post r hz,
    sumDurations_middle_zero _ pre post r hz, sumDurations_middle_zero _ pre post r hz⟩

/-- A never-ended stored session used to witness the zero-duration theorem. -/
def degenerateDemoRow : SessionRow :=
  { ID := 9, ExternalID := "w9", Source := "codex", StartedAt := 1000, EndedAt := none }

theorem degenerate_sessions_add_zero_duration_witness :
    (∀ e, degenerateDemoRow.EndedAt = some e → e ≤ degenerateDemoRow.StartedAt) ∧
    durationOf degenerateDemoRow = 0 ∧
    (aggregatedTotalSessionTime "codex" 0 ([] ++ degenerateDemoRow :: []) =
       aggregatedTotalSessionTime "codex" 0 ([] ++ []) ∧
     aggregatedAllTotalSessionTime 0 ([] ++ degenerateDemoRow :: []) =
       aggregatedAllTotalSessionTime 0 ([] ++ []) ∧
     dailySummaryTotalTime "codex" 0 0 ([] ++ degenerateDemoRow :: []) =
       dailySummaryTotalTime "codex" 0 0 ([] ++ []) ∧
     weeklySummaryTotalTime dayKey "codex" 0 0 ([] ++ degenerateDemoRow :: []) =
       weeklySummaryTotalTime dayKey "codex" 0 0 ([] ++ [])) :=
  ⟨by simp [degenerateDemoRow],
   (degenerate_sessions_add_zero_duration degenerateDemoRow (by simp [degenerateDemoRow])).1,
   (degenerate_sessions_add_zero_duration degenerateDemoRow (by simp [degenerateDemoRow])).2
     [] [] "codex" 0 0 0 dayKey⟩
